import Mathlib

/-!
Verification of the income-map data pipeline.

Shallow embedding of the data acquisition and reconciliation pipeline of the
repository (files `src/app.py`, `src/main.py`, `src/funcs/get_inc_data.py`,
`src/funcs/clean_data.py`).  Machine floats are modelled as rationals;
pandas data frames are modelled as lists of typed rows or lists of cells;
external library calls (CRS reprojection, geometry simplification) are
modelled as abstract function parameters of the environment; fallible code
returns `Except`.
-/

/-! ## Geometry model and coordinate rounding

`app.py` (`download_and_optimize_geojson`, lines 88-100) and `main.py`
(`create_optimized_geojson`, lines 137-156) both walk a GeoJSON geometry of
type `Polygon` (a list of rings, each a list of `[x, y]` coordinate pairs)
or `MultiPolygon` (a list of polygons) and round both members of every
coordinate pair with Python's `round(x, p)` (`p = 6` in `app.py`,
`p = 5` in `main.py`).  Coordinates are modelled as rationals and decimal
rounding as rounding to the nearest integer after scaling by `10 ^ p`. -/

abbrev Coord := ℚ × ℚ

abbrev GeoRing := List Coord

inductive Geometry where
  | polygon (rings : List GeoRing)
  | multiPolygon (polys : List (List GeoRing))
  deriving DecidableEq, Repr

/-- `round(x, p)`: round to `p` decimal digits, modelled over `ℚ`. -/
def roundQ (p : ℕ) (x : ℚ) : ℚ :=
  ((round (x * 10 ^ p) : ℤ) : ℚ) / 10 ^ p

def roundCoord (p : ℕ) (c : Coord) : Coord :=
  (roundQ p c.1, roundQ p c.2)

def roundRing (p : ℕ) (r : GeoRing) : GeoRing :=
  r.map (roundCoord p)

/-- The coordinate-rounding loop shared by `app.py` (precision 6) and
`main.py`'s `create_optimized_geojson` (precision 5). -/
def roundGeometry (p : ℕ) : Geometry → Geometry
  | .polygon rings => .polygon (rings.map (roundRing p))
  | .multiPolygon polys => .multiPolygon (polys.map (fun rs => rs.map (roundRing p)))

/-! ## Boundary optimizer (`app.py`, `download_and_optimize_geojson`)

Features carry a property mapping; the source keeps only the keys `nimi`
and `kunta` in the optimized output and reads `properties.get('kunta')`
for the municipality filter, so the two named keys are modelled as
`Option String` fields and all other keys as an association list. -/

structure FeatureProps where
  nimi : Option String
  kunta : Option String
  extra : List (String × String)
  deriving DecidableEq, Repr

structure Feature where
  props : FeatureProps
  geometry : Geometry
  deriving DecidableEq, Repr

/-- `MUNICIPALITY_CODES.keys()` of `app.py`. -/
def municipalityCodes : List String := ["091", "049", "092"]

def geojsonPathName : String := "assets/helsinki_regions.json"

/-- Environment of one run of `download_and_optimize_geojson`: whether the
cache file already exists, the decoded WFS response (`none` models a network
or decode failure, which the source catches), and the external geopandas
collaborators `to_crs` and `simplify`, which act on geometry only. -/
structure GeoEnv where
  cacheFileExists : Bool
  response : Option (List Feature)
  reproject : Geometry → Geometry
  simplify : Geometry → Geometry

/-- Observable outcome of one run: the returned path (`None` on failure),
the number of HTTP requests issued, and the feature collection written to
the cache file (`none` when nothing is written). -/
structure GeoRunResult where
  path : Option String
  fetchCalls : ℕ
  written : Option (List Feature)

/-- `feature['properties'].get('kunta') in MUNICIPALITY_CODES.keys()`
(`app.py` line 69). -/
def kuntaAllowed (pr : FeatureProps) : Bool :=
  match pr.kunta with
  | some k => municipalityCodes.contains k
  | none => false

/-- `{k: v for k, v in props.items() if k in {'nimi', 'kunta'}}`
(`app.py` lines 103-106). -/
def stripProps (pr : FeatureProps) : FeatureProps :=
  { pr with extra := [] }

/-- One optimized feature: reproject, simplify, round to 6 decimals, strip
properties (`app.py` lines 74-106). -/
def optimizeFeature (env : GeoEnv) (f : Feature) : Feature :=
  { props := stripProps f.props
    geometry := roundGeometry 6 (env.simplify (env.reproject f.geometry)) }

/-- `download_and_optimize_geojson` (`app.py` lines 33-117): when the cache
file exists, return its path at once; otherwise fetch (one request), filter
by municipality code, optimize every surviving feature and write the result.
A failed fetch is caught and yields `None` after one attempted request. -/
def download_and_optimize_geojson (env : GeoEnv) : GeoRunResult :=
  if env.cacheFileExists then
    { path := some geojsonPathName, fetchCalls := 0, written := none }
  else
    match env.response with
    | none => { path := none, fetchCalls := 1, written := none }
    | some features =>
        let filtered := features.filter (fun f => kuntaAllowed f.props)
        let optimized := filtered.map (optimizeFeature env)
        { path := some geojsonPathName, fetchCalls := 1, written := some optimized }

/-! ## Cells of a pandas table

One cell of a parsed pandas data frame: missing (`NaN`/`None`), numeric
(floats modelled as rationals), or string. -/

inductive PyCell where
  | na
  | num (q : ℚ)
  | str (s : String)
  deriving DecidableEq, Repr

instance : Inhabited PyCell := ⟨PyCell.na⟩

def PyCell.isNA : PyCell → Bool
  | .na => true
  | _ => false

/-! ## Dataset joiner (`main.py`, `merge_data` lines 92-110, `main` 204-208)

`merge_data` first slims the income frame with
`income_data[['AlueNimi', '2022 Valtionveronalaisten tulojen keskiarvo,
euroa']]` — a selection that raises `KeyError` when either column is
absent — and then performs `pd.merge(gdf, slim, left_on='nimi',
right_on='AlueNimi', how='inner')`.  Boundary rows are modelled with the
fields the merge touches (`nimi`, geometry, municipality code); a `StatRow`
is one row of the slimmed frame (`AlueNimi` key plus the income cell).
The slimming itself is defined below (`statRowsOf`), after the data-frame
model it needs. -/

structure BoundaryRow where
  nimi : String
  kunta : String
  geometry : Geometry
  deriving DecidableEq, Repr

structure StatRow where
  alueNimi : String
  income : PyCell
  deriving DecidableEq, Repr

structure MergedRow where
  nimi : String
  kunta : String
  geometry : Geometry
  alueNimi : String
  income : PyCell
  deriving DecidableEq, Repr

/-- The combined row the inner merge emits for one matching pair: all
columns of the left row followed by the columns of the right row. -/
def combineRow (b : BoundaryRow) (s : StatRow) : MergedRow :=
  { nimi := b.nimi, kunta := b.kunta, geometry := b.geometry
    alueNimi := s.alueNimi, income := s.income }

/-- `pd.merge(..., how='inner')` on `nimi` = `AlueNimi`: every pair of rows
whose keys are equal as strings contributes one combined row. -/
def innerMerge (bs : List BoundaryRow) (ss : List StatRow) : List MergedRow :=
  bs.flatMap fun b =>
    ss.filterMap fun s =>
      if s.alueNimi == b.nimi then some (combineRow b s) else none

/-- The two messages `main` can surface about the merge (`main.py` lines
204-208): a warning, or a success message carrying one number. -/
inductive MainReport where
  | warning
  | success (areas : ℕ)
  deriving DecidableEq, Repr

/-! Observer definitions following the spec's words, used to state the
match-count claims: how many boundary rows found at least one statistics
partner, how many statistics rows found at least one boundary partner, and
the unmatched remainders. -/

def boundariesMatched (bs : List BoundaryRow) (ss : List StatRow) : ℕ :=
  (bs.filter fun b => ss.any fun s => s.alueNimi == b.nimi).length

def statisticsMatched (bs : List BoundaryRow) (ss : List StatRow) : ℕ :=
  (ss.filter fun s => bs.any fun b => s.alueNimi == b.nimi).length

def unmatchedBoundaries (bs : List BoundaryRow) (ss : List StatRow) : ℕ :=
  bs.length - boundariesMatched bs ss

def unmatchedStatistics (bs : List BoundaryRow) (ss : List StatRow) : ℕ :=
  ss.length - statisticsMatched bs ss

/-- Number of result rows, the one quantity `main`'s success message
reports. -/
def reportedAreaCount (bs : List BoundaryRow) (ss : List StatRow) : ℕ :=
  (innerMerge bs ss).length

/-! ## Character-level string helpers

Python string operations are modelled over `List Char` so that concrete
witnesses reduce inside the kernel.  Each helper documents the Python
expression it embeds. -/

/-- `pattern` begins `text`. -/
def charsLead : List Char → List Char → Bool
  | [], _ => true
  | _ :: _, [] => false
  | p :: ps, c :: cs => p == c && charsLead ps cs

/-- Substring containment over characters. -/
def containsSeq (pat : List Char) : List Char → Bool
  | [] => pat.isEmpty
  | c :: cs => charsLead pat (c :: cs) || containsSeq pat cs

/-- Python `sub in s` / `Series.str.contains(sub)` for a literal pattern
without regex metacharacters. -/
def pyContains (s sub : String) : Bool :=
  containsSeq sub.toList s.toList

/-- Leading and trailing ASCII spaces removed. -/
def stripSpaces (cs : List Char) : List Char :=
  ((cs.dropWhile (· == ' ')).reverse.dropWhile (· == ' ')).reverse

/-- A non-empty all-digit character list as a number, else `none`. -/
def digitsToNat? (cs : List Char) : Option ℕ :=
  if cs.isEmpty then none
  else if cs.all Char.isDigit then
    some (cs.foldl (fun n c => 10 * n + (c.toNat - '0'.toNat)) 0)
  else none

/-- Python `s.isnumeric()`, restricted to ASCII digits: non-empty and all
digits.  (Python additionally accepts other Unicode numeric characters;
no data in this pipeline contains any, so they are not modelled.) -/
def pyIsNumeric (s : String) : Bool :=
  !s.toList.isEmpty && s.toList.all Char.isDigit

/-- Split at the first occurrence of `sep`; `none` when `sep` is absent. -/
def splitAtChar (sep : Char) : List Char → List Char × Option (List Char)
  | [] => ([], none)
  | c :: cs =>
      if c == sep then ([], some cs)
      else
        let (a, b) := splitAtChar sep cs
        (c :: a, b)

/-- Python `s.split(' ')[0]`: the first single-space-separated token
(`df.columns[i].split(' ')[0]`, `get_inc_data.py` line 41). -/
def normalizeHeader (h : String) : String :=
  String.mk (h.toList.takeWhile (fun c => c != ' '))

/-- Python `s.split(' ', 2)` / `Series.str.split(' ', n=2)`: at most three
parts; the third part is the remainder verbatim, spaces included; empty
strings between consecutive separators are kept. -/
def pySplit2 (s : String) : List String :=
  match splitAtChar ' ' s.toList with
  | (a, none) => [String.mk a]
  | (a, some rest) =>
      match splitAtChar ' ' rest with
      | (b, none) => [String.mk a, String.mk b]
      | (b, some rest2) => [String.mk a, String.mk b, String.mk rest2]

/-- Python `float(s)` on the plain decimal literals that occur in this
pipeline: optional surrounding spaces, optional sign, digits with an
optional single decimal point (exponent notation, `inf`, `nan` and digit
underscores are not modelled — no cell in this data uses them). -/
def pyFloat? (s : String) : Option ℚ :=
  let cs := stripSpaces s.toList
  let sgn : ℚ := if charsLead ['-'] cs then -1 else 1
  let ds : List Char :=
    if charsLead ['-'] cs || charsLead ['+'] cs then cs.drop 1 else cs
  match splitAtChar '.' ds with
  | (a, none) => (digitsToNat? a).map fun n => sgn * n
  | (a, some b) =>
      if b.any (· == '.') then none
      else if a.isEmpty && b.isEmpty then none
      else
        match (if a.isEmpty then some 0 else digitsToNat? a),
              (if b.isEmpty then some 0 else digitsToNat? b) with
        | some n, some m => some (sgn * ((n : ℚ) + (m : ℚ) / 10 ^ b.length))
        | _, _ => none

/-! ## Statistics fetcher (`funcs/get_inc_data.py`, `make_query`)

The network layer and `pd.read_csv` are the embedding boundary: `make_query`
is modelled on the HTTP status code together with the parsed CSV (headers
and cell rows, numeric cells already typed by `read_csv`'s inference — the
sentinel `".."` is not numeric, so it always arrives as a string cell).
The modelled steps are the source's own: header normalization (line 41/44),
`replace('..', nan)` (45), `dropna(how='all')` (46), and
`df[years] = df[years].astype(float)` (48). -/

instance {ε α : Type} [DecidableEq ε] [DecidableEq α] :
    DecidableEq (Except ε α) := fun a b =>
  match a, b with
  | .error e, .error f =>
      if h : e = f then isTrue (h ▸ rfl)
      else isFalse (fun hh => h (Except.error.inj hh))
  | .ok x, .ok y =>
      if h : x = y then isTrue (h ▸ rfl)
      else isFalse (fun hh => h (Except.ok.inj hh))
  | .error _, .ok _ => isFalse Except.noConfusion
  | .ok _, .error _ => isFalse Except.noConfusion

structure PDF where
  headers : List String
  rows : List (List PyCell)
  deriving DecidableEq, Repr

/-- `pd.DataFrame()`: no columns, no rows. -/
def emptyPDF : PDF := ⟨[], []⟩

/-- `df.replace('..', np.nan)` on one cell: exact match, not substring. -/
def replaceCell (c : PyCell) : PyCell :=
  if c = .str ".." then .na else c

def replaceRow (r : List PyCell) : List PyCell :=
  r.map replaceCell

/-- `.astype(float)` on one cell: missing stays missing, numbers stay,
strings must parse as floats. -/
def convertCell : PyCell → Except String PyCell
  | .na => .ok .na
  | .num q => .ok (.num q)
  | .str s =>
      match pyFloat? s with
      | some q => .ok (.num q)
      | none => .error ("ValueError: could not convert string to float: " ++ s)

/-- `.astype(float)` applied to the cells of one row whose column index
lies in `idxs` (the positions of the requested year columns); `j` is the
index of the first cell of the remaining list. -/
def astypeRowAux (idxs : List ℕ) : ℕ → List PyCell → Except String (List PyCell)
  | _, [] => .ok []
  | j, c :: cs =>
      match (if j ∈ idxs then convertCell c else .ok c) with
      | .error e => .error e
      | .ok c' =>
          match astypeRowAux idxs (j + 1) cs with
          | .error e => .error e
          | .ok cs' => .ok (c' :: cs')

def astypeRow (idxs : List ℕ) (r : List PyCell) : Except String (List PyCell) :=
  astypeRowAux idxs 0 r

def astypeRows (idxs : List ℕ) :
    List (List PyCell) → Except String (List (List PyCell))
  | [] => .ok []
  | r :: rs =>
      match astypeRow idxs r with
      | .error e => .error e
      | .ok r' =>
          match astypeRows idxs rs with
          | .error e => .error e
          | .ok rs' => .ok (r' :: rs')

/-- Position of column `y` among the headers (`df[y]`); `none` is pandas'
`KeyError`. -/
def colIndex (hs : List String) (y : String) : Option ℕ :=
  hs.findIdx? (fun h => h == y)

def yearIndices (hs : List String) (years : List String) : Option (List ℕ) :=
  years.mapM (colIndex hs)

/-- `make_query` (`get_inc_data.py` lines 9-55) on one HTTP exchange:
non-200 status prints and returns `pd.DataFrame()`; a 200 response is
parsed, headers are cut at the first space, `'..'` cells become missing,
rows missing in every column are dropped, and the requested year columns
are coerced to float. -/
def make_query (status : ℕ) (headers : List String)
    (rows : List (List PyCell)) (years : List String) : Except String PDF :=
  if status = 200 then
    match yearIndices (headers.map normalizeHeader) years with
    | none => .error "KeyError: requested year column missing"
    | some idxs =>
        match astypeRows idxs
            ((rows.map replaceRow).filter fun r => !(r.all PyCell.isNA)) with
        | .error e => .error e
        | .ok rows3 => .ok ⟨headers.map normalizeHeader, rows3⟩
  else .ok emptyPDF

/-- Cell of a row at column index `j`; out-of-range reads are missing. -/
def cellAt (r : List PyCell) (j : ℕ) : PyCell :=
  r.getD j .na

/-! ## Statistics cleaner (`funcs/clean_data.py`, `clean_data`)

A raw row is its `Alue` cell (`none` models a missing label, on which the
`.str` accessor yields `NaN`) together with the remaining cells.  The
pandas steps are modelled row-wise with their error cases:

* `mask = df['Alue'].str.contains('piiri') == False` keeps exactly the rows
  whose label is present and free of the substring `piiri` (`NaN == False`
  is `False`);
* `Aluecol = df['Alue'].str.split(' ', n=2, expand=True)` has `max parts`
  columns over the filtered rows: `Aluecol[1]` raises `KeyError` when no
  filtered row has a second token;
* `df[mask2]` with `mask2 = Aluecol[1].str.isnumeric()` raises when some
  filtered row has fewer than two tokens (`NaN` in a boolean mask);
* `df['AlueNimi'] = Aluecol[2]` raises `KeyError` when no filtered row has
  three tokens; a kept two-token row receives a missing region name. -/

structure RawRow where
  alue : Option String
  values : List PyCell
  deriving DecidableEq, Repr

structure CleanRow where
  alueNum : String
  alueNimi : Option String
  kuntaNum : String
  values : List PyCell
  deriving DecidableEq, Repr

/-- `df['Alue'].str.contains('piiri') == False` on one row. -/
def keepsRow (r : RawRow) : Bool :=
  match r.alue with
  | none => false
  | some s => !(pyContains s "piiri")

/-- The row's `str.split(' ', n=2)` parts. -/
def rowParts (r : RawRow) : List String :=
  pySplit2 (r.alue.getD "")

/-- The columns `clean_data` attaches: `AlueNum` = second token, `AlueNimi`
= third token (missing on a two-token label), `KuntaNum` = first token;
`Alue` is dropped, the year cells stay. -/
def mkClean (r : RawRow) (p : List String) : CleanRow :=
  { alueNum := p.getD 1 ""
    alueNimi := if 3 ≤ p.length then some (p.getD 2 "") else none
    kuntaNum := p.getD 0 ""
    values := r.values }

/-- `clean_data` (`clean_data.py` lines 7-22). -/
def clean_data (rows : List RawRow) : Except String (List CleanRow) :=
  if ((rows.filter keepsRow).map fun r => (rowParts r).length).foldr
      Nat.max 0 < 2 then
    .error "KeyError: 1"
  else if (rows.filter keepsRow).any (fun r => (rowParts r).length < 2) then
    .error "ValueError: cannot mask with non-boolean array containing NA"
  else if ((rows.filter keepsRow).map fun r => (rowParts r).length).foldr
      Nat.max 0 < 3 then
    .error "KeyError: 2"
  else
    .ok (((rows.filter keepsRow).filter
        fun r => pyIsNumeric ((rowParts r).getD 1 "")).map
        fun r => mkClean r (rowParts r))

/-- The row the spec's words predict for the cleaner: drop district and
missing labels, drop non-numeric second tokens, and emit the three derived
columns. -/
def cleanRowSpec (r : RawRow) : Option CleanRow :=
  match r.alue with
  | none => none
  | some s =>
      if pyContains s "piiri" then none
      else if pyIsNumeric ((pySplit2 s).getD 1 "") then
        some (mkClean r (pySplit2 s))
      else none

/-! ## Dataset joiner, slim selection (`main.py` lines 92-110)

The income input of `merge_data` is a full data frame (the `clean_data`
output, whose year columns `make_query` has renamed to their first token);
line 98 hard-codes the pre-normalization column name. -/

/-- The income column `merge_data` selects (`main.py` line 98). -/
def incomeColName : String :=
  "2022 Valtionveronalaisten tulojen keskiarvo, euroa"

/-- `income_data[['AlueNimi', incomeColName]].copy()` keyed by the
`AlueNimi` cells: `none` when either column is absent (pandas `KeyError`).
A row whose key cell is not a string can never match a string key from the
boundary frame, so dropping it here leaves the inner merge unchanged. -/
def statRowsOf (df : PDF) : Option (List StatRow) :=
  match colIndex df.headers "AlueNimi", colIndex df.headers incomeColName with
  | some iName, some iInc =>
      some (df.rows.filterMap fun r =>
        match cellAt r iName with
        | .str s => some { alueNimi := s, income := cellAt r iInc }
        | _ => none)
  | _, _ => none

/-- `merge_data` (`main.py` lines 92-110): `None` when either input is
`None`; otherwise slim the income frame to `['AlueNimi', incomeColName]` —
an uncaught `KeyError` when a column is absent — then inner-merge on
`nimi` = `AlueNimi`. -/
def merge_data (gdf : Option (List BoundaryRow)) (inc : Option PDF) :
    Except String (Option (List MergedRow)) :=
  match gdf, inc with
  | some bs, some df =>
      match statRowsOf df with
      | some ss => .ok (some (innerMerge bs ss))
      | none => .error "KeyError: income columns not in index"
  | _, _ => .ok none

/-- What `main` surfaces about the merge (`main.py` lines 204-208): an
exception from `merge_data` propagates uncaught; otherwise a warning when
the merge returned `None` or an empty frame, else a success message
carrying `len(merged_gdf)` and nothing else. -/
def mainMergeReport (gdf : Option (List BoundaryRow)) (inc : Option PDF) :
    Except String MainReport :=
  match merge_data gdf inc with
  | .error e => .error e
  | .ok none => .ok .warning
  | .ok (some l) => .ok (if l.length = 0 then .warning else .success l.length)

/-! ## Theorems: C9, C3, C6 -/

lemma roundQ_idem (p : ℕ) (x : ℚ) : roundQ p (roundQ p x) = roundQ p x := by
  unfold roundQ
  have hp : ((10 : ℚ) ^ p) ≠ 0 := by positivity
  rw [div_mul_cancel₀ _ hp, round_intCast]

lemma roundCoord_idem (p : ℕ) (c : Coord) :
    roundCoord p (roundCoord p c) = roundCoord p c := by
  unfold roundCoord
  simp [roundQ_idem]

lemma roundRing_idem (p : ℕ) (r : GeoRing) :
    roundRing p (roundRing p r) = roundRing p r := by
  unfold roundRing
  rw [List.map_map]
  apply List.map_congr_left
  intro c _
  exact roundCoord_idem p c

/-- C9: Coordinate rounding in BoundaryOptimizer is idempotent: for every
polygon or multipolygon geometry and every precision (6 in `app.py`, 5 in
`main.py`), rounding an already-rounded geometry yields the identical
geometry. -/
theorem roundGeometry_idempotent (p : ℕ) (g : Geometry) :
    roundGeometry p (roundGeometry p g) = roundGeometry p g := by
  cases g with
  | polygon rings =>
      simp only [roundGeometry, List.map_map]
      congr 1
      apply List.map_congr_left
      intro r _
      exact roundRing_idem p r
  | multiPolygon polys =>
      simp only [roundGeometry, List.map_map]
      congr 1
      apply List.map_congr_left
      intro rs _
      simp only [Function.comp, List.map_map]
      apply List.map_congr_left
      intro r _
      exact roundRing_idem p r

/-- C3: if the boundary cache artifact already exists, the run returns the
cached artifact's path, issues zero network requests, and writes nothing
(the filter/reproject/simplify/round/strip steps never run). -/
theorem cached_run_issues_no_fetch (env : GeoEnv)
    (h : env.cacheFileExists = true) :
    download_and_optimize_geojson env =
      { path := some geojsonPathName, fetchCalls := 0, written := none } := by
  unfold download_and_optimize_geojson
  rw [h]
  simp

/-- Witness for C3 at a concrete environment whose cache file exists. -/
theorem cached_run_issues_no_fetch_witness :
    download_and_optimize_geojson
      { cacheFileExists := true, response := none
        reproject := id, simplify := id } =
      { path := some geojsonPathName, fetchCalls := 0, written := none } :=
  cached_run_issues_no_fetch _ rfl

/-- C6: every feature written by the optimizer has a municipality-code
property drawn from the fixed allowed set `{091, 049, 092}`; a feature whose
code is `"000"`, any other outside value, or absent never appears. -/
theorem optimized_features_have_allowed_kunta (env : GeoEnv)
    (col : List Feature) (f : Feature)
    (hw : (download_and_optimize_geojson env).written = some col)
    (hf : f ∈ col) :
    ∃ k, f.props.kunta = some k ∧ k ∈ municipalityCodes := by
  unfold download_and_optimize_geojson at hw
  by_cases hc : env.cacheFileExists
  · rw [if_pos hc] at hw
    simp at hw
  · rw [if_neg hc] at hw
    cases hresp : env.response with
    | none => rw [hresp] at hw; simp at hw
    | some features =>
        rw [hresp] at hw
        simp only [Option.some.injEq] at hw
        subst hw
        obtain ⟨f0, hf0, rfl⟩ := List.mem_map.mp hf
        have hmem := List.mem_filter.mp hf0
        have hall : kuntaAllowed f0.props = true := hmem.2
        unfold kuntaAllowed at hall
        cases hk : f0.props.kunta with
        | none => rw [hk] at hall; simp at hall
        | some k =>
            rw [hk] at hall
            refine ⟨k, ?_, ?_⟩
            · simp [optimizeFeature, stripProps, hk]
            · simpa using hall

/-- Witness for C6: a raw collection holding a feature with code `"000"`
and one with code `"091"`; only the latter survives, and the theorem applies
to it. -/
theorem optimized_features_have_allowed_kunta_witness :
    ∃ k, (Feature.props
      { props := { nimi := some "Jollas", kunta := some "091", extra := [] }
        geometry := Geometry.polygon [] }).kunta
        = some k ∧ k ∈ municipalityCodes :=
  optimized_features_have_allowed_kunta
    { cacheFileExists := false
      response := some
        [ { props := { nimi := some "Nowhere", kunta := some "000", extra := [] }
            geometry := Geometry.polygon [] }
        , { props := { nimi := some "Jollas", kunta := some "091"
                       extra := [("tunnus", "x")] }
            geometry := Geometry.polygon [] } ]
      reproject := id, simplify := id }
    _ _ (by rfl) (by decide)

/-! ## Theorems: C1 -/

/-- The bare `pd.merge` step: its result contains exactly the combined rows
of pairs whose region names agree under exact string equality.  This is
what C1 describes, but `merge_data` never reaches this step on a cleaned
statistics table — see `merge_data_keyerror_on_cleaned_table`. -/
lemma inner_join_membership (bs : List BoundaryRow) (ss : List StatRow)
    (m : MergedRow) :
    m ∈ innerMerge bs ss ↔
      ∃ b ∈ bs, ∃ s ∈ ss, b.nimi = s.alueNimi ∧ m = combineRow b s := by
  constructor
  · intro hm
    obtain ⟨b, hb, s, hs, hf⟩ := by
      simpa only [innerMerge, List.mem_flatMap, List.mem_filterMap] using hm
    by_cases h : s.alueNimi == b.nimi
    · rw [if_pos h] at hf
      exact ⟨b, hb, s, hs, (beq_iff_eq.mp h).symm, (Option.some_inj.mp hf).symm⟩
    · rw [if_neg h] at hf
      exact absurd hf (by simp)
  · rintro ⟨b, hb, s, hs, heq, rfl⟩
    have hcond : (if s.alueNimi == b.nimi then some (combineRow b s) else none)
        = some (combineRow b s) := if_pos (beq_iff_eq.mpr heq.symm)
    exact List.mem_flatMap.mpr ⟨b, hb, List.mem_filterMap.mpr ⟨s, hs, hcond⟩⟩

/-- C1 (code bug): on a genuinely cleaned statistics table — whose year
column `make_query` has renamed to its first token `'2022'` — `merge_data`
raises `KeyError` at the slim selection `income_data[['AlueNimi', '2022
Valtionveronalaisten tulojen keskiarvo, euroa']]` (`main.py` lines 98-99)
instead of producing the inner join the claim describes: the hard-coded
pre-normalization column name cannot occur in `clean_data` output, so the
join is never reached on the claim's domain. -/
theorem merge_data_keyerror_on_cleaned_table :
    merge_data (some [{ nimi := "Jollas", kunta := "091"
                        geometry := Geometry.polygon [] }])
      (some ⟨["2022", "AlueNum", "AlueNimi", "KuntaNum"],
        [[PyCell.num 50000, PyCell.str "220", PyCell.str "Jollas",
          PyCell.str "091"]]⟩)
      = .error "KeyError: income columns not in index" := by
  decide

/-! ## Theorems: C7 -/

lemma sum_map_add_nat {α : Type} (f g : α → ℕ) (l : List α) :
    (l.map fun x => f x + g x).sum = (l.map f).sum + (l.map g).sum := by
  induction l with
  | nil => simp
  | cons a l ih => simp only [List.map_cons, List.sum_cons, ih]; omega

lemma countP_eq_sum_ite {α : Type} (p : α → Bool) (l : List α) :
    l.countP p = (l.map fun x => if p x then 1 else 0).sum := by
  induction l with
  | nil => simp
  | cons a l ih =>
      simp only [List.countP_cons, List.map_cons, List.sum_cons, ih]
      omega

lemma sum_countP_comm {α β : Type} (q : α → β → Bool) (bs : List α)
    (ss : List β) :
    (bs.map fun b => ss.countP fun s => q b s).sum
      = (ss.map fun s => bs.countP fun b => q b s).sum := by
  induction bs with
  | nil => simp
  | cons b bs ih =>
      simp only [List.map_cons, List.sum_cons, List.countP_cons]
      rw [sum_map_add_nat (fun s => bs.countP fun b => q b s)
        (fun s => if q b s then 1 else 0) ss, ← ih,
        countP_eq_sum_ite (fun s => q b s) ss]
      omega

lemma length_filterMap_ite {α β : Type} (p : α → Bool) (h : α → β)
    (l : List α) :
    (l.filterMap fun a => if p a then some (h a) else none).length
      = l.countP p := by
  induction l with
  | nil => simp
  | cons a l ih =>
      cases hp : p a
      · simp [List.filterMap_cons, hp, ih, List.countP_cons]
      · simp [List.filterMap_cons, hp, ih, List.countP_cons]

lemma innerMerge_length (bs : List BoundaryRow) (ss : List StatRow) :
    (innerMerge bs ss).length
      = (bs.map fun b => ss.countP fun s => s.alueNimi == b.nimi).sum := by
  unfold innerMerge
  rw [List.length_flatMap]
  congr 1
  apply List.map_congr_left
  intro b _
  exact length_filterMap_ite _ _ ss

/-- Under a duplicate-free key column, a key occurs at most once: the count
of rows carrying key `k` is `1` when some row does, else `0`. -/
lemma countP_key_nodup {α : Type} (key : α → String) (k : String)
    (l : List α) (h : (l.map key).Nodup) :
    (l.countP fun a => key a == k)
      = if l.any (fun a => key a == k) then 1 else 0 := by
  induction l with
  | nil => simp
  | cons a l ih =>
      simp only [List.map_cons, List.nodup_cons] at h
      obtain ⟨hnot, hnd⟩ := h
      by_cases ha : (key a == k)
      · have hzero : (l.countP fun a => key a == k) = 0 := by
          rw [List.countP_eq_zero]
          intro b hb hbk
          apply hnot
          have hkey : key b = key a := by
            rw [beq_iff_eq] at ha hbk
            rw [hbk, ha]
          rw [← hkey]
          exact List.mem_map_of_mem key hb
        simp [List.countP_cons, List.any_cons, ha, hzero]
      · simp only [List.countP_cons, List.any_cons,
          (Bool.not_eq_true _).mp ha, Bool.false_or, if_neg ha]
        rw [ih hnd]
        simp

/-- Variant of `countP_key_nodup` with the key comparison flipped. -/
lemma countP_key_nodup_flip {α : Type} (key : α → String) (k : String)
    (l : List α) (h : (l.map key).Nodup) :
    (l.countP fun a => k == key a)
      = if l.any (fun a => k == key a) then 1 else 0 := by
  have hfun : (fun a => k == key a) = (fun a => key a == k) := by
    funext a
    cases hx : (key a == k)
    · have : ¬ key a = k := by
        intro hh
        rw [hh] at hx
        simp at hx
      simp [beq_iff_eq, Ne.symm this]
    · rw [beq_iff_eq] at hx
      simp [beq_iff_eq, hx]
  rw [hfun]
  exact countP_key_nodup key k l h

lemma length_filter_eq_countP {α : Type} (p : α → Bool) (l : List α) :
    (l.filter p).length = l.countP p := by
  induction l with
  | nil => simp
  | cons a l ih =>
      cases h : p a
      · simp [List.filter_cons, h, ih, List.countP_cons]
      · simp [List.filter_cons, h, ih, List.countP_cons]

/-- C7 counterexample: the joiner's entire output (the merged rows, hence
also the reported `len(merged_gdf)`) is identical for input pairs that
differ in their unmatched-boundary counts, and likewise for pairs that
differ in their per-side matched counts — so neither per-side matched nor
unmatched counts are reported by, or recoverable from, what the code
returns and surfaces, contradicting the claim.  The income frame carries
the hard-coded column, so the slim selection succeeds and the code reaches
the merge and the report. -/
theorem join_counts_not_reported_counterexample :
    (innerMerge
        [⟨"Jollas", "091", .polygon []⟩, ⟨"Laajasalo", "091", .polygon []⟩]
        [⟨"Jollas", .num 50000⟩]
      = innerMerge [⟨"Jollas", "091", .polygon []⟩] [⟨"Jollas", .num 50000⟩]
    ∧ statRowsOf ⟨["AlueNimi", incomeColName],
        [[PyCell.str "Jollas", PyCell.num 50000]]⟩
      = some [⟨"Jollas", .num 50000⟩]
    ∧ mainMergeReport
        (some [⟨"Jollas", "091", .polygon []⟩, ⟨"Laajasalo", "091", .polygon []⟩])
        (some ⟨["AlueNimi", incomeColName],
          [[PyCell.str "Jollas", PyCell.num 50000]]⟩)
      = mainMergeReport (some [⟨"Jollas", "091", .polygon []⟩])
          (some ⟨["AlueNimi", incomeColName],
            [[PyCell.str "Jollas", PyCell.num 50000]]⟩)
    ∧ unmatchedBoundaries
        [⟨"Jollas", "091", .polygon []⟩, ⟨"Laajasalo", "091", .polygon []⟩]
        [⟨"Jollas", .num 50000⟩]
      ≠ unmatchedBoundaries [⟨"Jollas", "091", .polygon []⟩]
          [⟨"Jollas", .num 50000⟩])
    ∧ (innerMerge [⟨"Jollas", "091", .polygon []⟩]
        [⟨"Jollas", .num 50000⟩, ⟨"Jollas", .num 50000⟩]
      = innerMerge
          [⟨"Jollas", "091", .polygon []⟩, ⟨"Jollas", "091", .polygon []⟩]
          [⟨"Jollas", .num 50000⟩]
    ∧ boundariesMatched [⟨"Jollas", "091", .polygon []⟩]
        [⟨"Jollas", .num 50000⟩, ⟨"Jollas", .num 50000⟩]
      ≠ boundariesMatched
          [⟨"Jollas", "091", .polygon []⟩, ⟨"Jollas", "091", .polygon []⟩]
          [⟨"Jollas", .num 50000⟩]) := by
  decide

/-- C7 amended: when the slim selection succeeds, the joiner returns only
the merged rows and `main` reports only their count (`len(merged_gdf)`),
not per-side matched or unmatched counts; when region names are unique on
each side — as for genuine sub-region data — that single count does equal
both the number of matched boundaries and the number of matched statistics
rows. -/
theorem reported_count_equals_matched_counts (bs : List BoundaryRow)
    (df : PDF) (ss : List StatRow)
    (hss : statRowsOf df = some ss)
    (hb : (bs.map BoundaryRow.nimi).Nodup)
    (hs : (ss.map StatRow.alueNimi).Nodup) :
    reportedAreaCount bs ss = boundariesMatched bs ss
    ∧ reportedAreaCount bs ss = statisticsMatched bs ss
    ∧ mainMergeReport (some bs) (some df)
        = .ok (if reportedAreaCount bs ss = 0 then .warning
           else .success (reportedAreaCount bs ss)) := by
  have hA : reportedAreaCount bs ss
      = (bs.map fun b => ss.countP fun s => s.alueNimi == b.nimi).sum :=
    innerMerge_length bs ss
  refine ⟨?_, ?_, ?_⟩
  · rw [hA]
    unfold boundariesMatched
    rw [length_filter_eq_countP]
    have hmap : (bs.map fun b => ss.countP fun s => s.alueNimi == b.nimi)
        = bs.map fun b =>
            if ss.any (fun s => s.alueNimi == b.nimi) then 1 else 0 := by
      apply List.map_congr_left
      intro b _
      exact countP_key_nodup StatRow.alueNimi b.nimi ss hs
    rw [hmap, ← countP_eq_sum_ite]
  · rw [hA, sum_countP_comm (fun b s => s.alueNimi == b.nimi) bs ss]
    unfold statisticsMatched
    rw [length_filter_eq_countP]
    have hmap : (ss.map fun s => bs.countP fun b => s.alueNimi == b.nimi)
        = ss.map fun s =>
            if bs.any (fun b => s.alueNimi == b.nimi) then 1 else 0 := by
      apply List.map_congr_left
      intro s _
      exact countP_key_nodup_flip BoundaryRow.nimi s.alueNimi bs hb
    rw [hmap, ← countP_eq_sum_ite]
  · simp only [mainMergeReport, merge_data, hss, reportedAreaCount]

/-- Witness for C7's amended theorem at the spec's own example: boundaries
{Jollas, Laajasalo}, an income frame carrying {Jollas, Otaniemi} under the
hard-coded column; the reported count is 1 and equals both matched
counts. -/
theorem reported_count_equals_matched_counts_witness :
    reportedAreaCount
        [⟨"Jollas", "091", .polygon []⟩, ⟨"Laajasalo", "091", .polygon []⟩]
        [⟨"Jollas", .num 50000⟩, ⟨"Otaniemi", .num 60000⟩]
      = boundariesMatched
        [⟨"Jollas", "091", .polygon []⟩, ⟨"Laajasalo", "091", .polygon []⟩]
        [⟨"Jollas", .num 50000⟩, ⟨"Otaniemi", .num 60000⟩]
    ∧ reportedAreaCount
        [⟨"Jollas", "091", .polygon []⟩, ⟨"Laajasalo", "091", .polygon []⟩]
        [⟨"Jollas", .num 50000⟩, ⟨"Otaniemi", .num 60000⟩]
      = statisticsMatched
        [⟨"Jollas", "091", .polygon []⟩, ⟨"Laajasalo", "091", .polygon []⟩]
        [⟨"Jollas", .num 50000⟩, ⟨"Otaniemi", .num 60000⟩]
    ∧ mainMergeReport
        (some [⟨"Jollas", "091", .polygon []⟩, ⟨"Laajasalo", "091", .polygon []⟩])
        (some ⟨["AlueNimi", incomeColName],
          [[PyCell.str "Jollas", PyCell.num 50000],
           [PyCell.str "Otaniemi", PyCell.num 60000]]⟩)
        = .ok (if reportedAreaCount
            [⟨"Jollas", "091", .polygon []⟩, ⟨"Laajasalo", "091", .polygon []⟩]
            [⟨"Jollas", .num 50000⟩, ⟨"Otaniemi", .num 60000⟩] = 0
           then .warning
           else .success (reportedAreaCount
            [⟨"Jollas", "091", .polygon []⟩, ⟨"Laajasalo", "091", .polygon []⟩]
            [⟨"Jollas", .num 50000⟩, ⟨"Otaniemi", .num 60000⟩])) :=
  reported_count_equals_matched_counts _ _ _ (by decide) (by decide) (by decide)

/-! ## Theorems: C4, C5, C8 -/

lemma cellAt_of_le (r : List PyCell) (j : ℕ) (h : r.length ≤ j) :
    cellAt r j = .na := by
  induction r generalizing j with
  | nil => rfl
  | cons c cs ih =>
      cases j with
      | zero => simp at h
      | succ j => exact ih j (by simpa using h)

lemma cellAt_eq_get (r : List PyCell) (i : ℕ) (h : i < r.length) :
    cellAt r i = r.get ⟨i, h⟩ := by
  induction r generalizing i with
  | nil => simp at h
  | cons c cs ih =>
      cases i with
      | zero => rfl
      | succ i => exact ih i (by simpa using h)

lemma cellAt_mem (r : List PyCell) (i : ℕ) (h : i < r.length) :
    cellAt r i ∈ r := by
  rw [cellAt_eq_get r i h]
  exact List.get_mem r i h

lemma cellAt_replaceRow (r : List PyCell) (j : ℕ) (h : j < r.length) :
    cellAt (replaceRow r) j = replaceCell (cellAt r j) := by
  induction r generalizing j with
  | nil => simp at h
  | cons c cs ih =>
      cases j with
      | zero => rfl
      | succ j => exact ih j (by simpa using h)

lemma length_replaceRow (r : List PyCell) :
    (replaceRow r).length = r.length :=
  List.length_map r replaceCell

lemma convertCell_isNA (c c' : PyCell) (h : convertCell c = .ok c') :
    c'.isNA = c.isNA := by
  cases c with
  | na => exact (Except.ok.inj h) ▸ rfl
  | num q => exact (Except.ok.inj h) ▸ rfl
  | str s =>
      cases hf : pyFloat? s with
      | none => simp [convertCell, hf] at h
      | some q =>
          simp only [convertCell, hf, Except.ok.injEq] at h
          rw [← h]
          rfl

lemma astypeRowAux_spec (idxs : List ℕ) (k : ℕ) (r out : List PyCell)
    (h : astypeRowAux idxs k r = .ok out) :
    out.length = r.length ∧
      ∀ i, i < r.length →
        (if (k + i) ∈ idxs then convertCell (cellAt r i) = .ok (cellAt out i)
         else cellAt out i = cellAt r i) := by
  induction r generalizing k out with
  | nil =>
      obtain rfl : ([] : List PyCell) = out := Except.ok.inj h
      exact ⟨rfl, fun i hi => by simp at hi⟩
  | cons c cs ih =>
      unfold astypeRowAux at h
      cases hc : (if k ∈ idxs then convertCell c else .ok c) with
      | error e => rw [hc] at h; exact Except.noConfusion h
      | ok c' =>
          rw [hc] at h
          cases hcs : astypeRowAux idxs (k + 1) cs with
          | error e => rw [hcs] at h; exact Except.noConfusion h
          | ok cs' =>
              rw [hcs] at h
              obtain rfl : c' :: cs' = out := Except.ok.inj h
              obtain ⟨hlen, hpt⟩ := ih (k + 1) cs' hcs
              refine ⟨by simp [hlen], ?_⟩
              intro i hi
              cases i with
              | zero =>
                  simp only [Nat.add_zero]
                  by_cases hk : k ∈ idxs
                  · rw [if_pos hk]
                    rw [if_pos hk] at hc
                    exact hc
                  · rw [if_neg hk]
                    rw [if_neg hk] at hc
                    exact (Except.ok.inj hc).symm
              | succ i =>
                  have hi' : i < cs.length := by simpa using hi
                  have hstep := hpt i hi'
                  have harith : k + (i + 1) = (k + 1) + i := by omega
                  rw [harith]
                  exact hstep

lemma astypeRows_spec (idxs : List ℕ) (rs out : List (List PyCell))
    (h : astypeRows idxs rs = .ok out) :
    out.length = rs.length ∧
      ∀ r' ∈ out, ∃ r ∈ rs, astypeRow idxs r = .ok r' := by
  induction rs generalizing out with
  | nil =>
      obtain rfl : ([] : List (List PyCell)) = out := Except.ok.inj h
      exact ⟨rfl, fun r' hr' => by simp at hr'⟩
  | cons r rs ih =>
      unfold astypeRows at h
      cases hr : astypeRow idxs r with
      | error e => rw [hr] at h; exact Except.noConfusion h
      | ok r' =>
          rw [hr] at h
          cases hrs : astypeRows idxs rs with
          | error e => rw [hrs] at h; exact Except.noConfusion h
          | ok rs' =>
              rw [hrs] at h
              obtain rfl : r' :: rs' = out := Except.ok.inj h
              obtain ⟨hlen, hmem⟩ := ih rs' hrs
              refine ⟨by simp [hlen], ?_⟩
              intro x hx
              rcases List.mem_cons.mp hx with hx | hx
              · exact ⟨r, List.mem_cons_self r rs, hx ▸ hr⟩
              · obtain ⟨r0, hr0, hr0'⟩ := hmem x hx
                exact ⟨r0, List.mem_cons_of_mem r hr0, hr0'⟩

lemma make_query_ok_inv (headers : List String) (rows : List (List PyCell))
    (years : List String) (df : PDF)
    (h : make_query 200 headers rows years = .ok df) :
    ∃ idxs, yearIndices (headers.map normalizeHeader) years = some idxs
      ∧ astypeRows idxs
          ((rows.map replaceRow).filter fun r => !(r.all PyCell.isNA))
          = .ok df.rows
      ∧ df.headers = headers.map normalizeHeader := by
  unfold make_query at h
  rw [if_pos rfl] at h
  split at h
  · exact Except.noConfusion h
  · rename_i idxs0 hy0
    split at h
    · exact Except.noConfusion h
    · rename_i rows3 hr0
      have hdf := Except.ok.inj h
      subst hdf
      exact ⟨idxs0, hy0, hr0, rfl⟩

/-- C4: a non-success HTTP status makes `make_query` return an explicitly
empty data frame — no exception is raised. -/
theorem non_success_returns_empty_table (status : ℕ) (headers : List String)
    (rows : List (List PyCell)) (years : List String) (h : status ≠ 200) :
    make_query status headers rows years = .ok emptyPDF := by
  unfold make_query
  rw [if_neg h]

/-- Witness for C4 at status 404. -/
theorem non_success_returns_empty_table_witness :
    make_query 404 ["Alue", "2022 Mediaani euroa"]
      [[.str "091 220 Jollas", .str "50000"]] ["2022"] = .ok emptyPDF :=
  non_success_returns_empty_table 404 _ _ _ (by decide)

/-- C5: on a successful response, every output row is the image under the
year-column float coercion of the sentinel-replaced form of some input row
(the tie `astypeRow idxs (replaceRow r) = .ok row` pins that row), and in
EVERY requested year column where that input row held exactly the
two-character sentinel `".."`, the output row holds the missing marker —
not zero — and the float coercion of that cell succeeded. -/
theorem sentinel_cells_become_null (headers : List String)
    (rows : List (List PyCell)) (years : List String) (df : PDF)
    (row : List PyCell) (idxs : List ℕ)
    (h : make_query 200 headers rows years = .ok df)
    (hrow : row ∈ df.rows)
    (hidx : yearIndices (headers.map normalizeHeader) years = some idxs) :
    ∃ r ∈ rows, astypeRow idxs (replaceRow r) = .ok row
      ∧ ∀ j ∈ idxs, cellAt r j = .str ".." →
          cellAt row j = .na ∧ cellAt row j ≠ .num 0 := by
  obtain ⟨idxs', hy, hrows, _⟩ := make_query_ok_inv headers rows years df h
  have hsame : idxs' = idxs := by
    rw [hy] at hidx
    exact Option.some_inj.mp hidx
  rw [← hsame]
  obtain ⟨_, hmem⟩ := astypeRows_spec idxs' _ df.rows hrows
  obtain ⟨r2, hr2, hconv⟩ := hmem row hrow
  have hr2' := (List.mem_filter.mp hr2).1
  obtain ⟨rr, hrr, rfl⟩ := List.mem_map.mp hr2'
  refine ⟨rr, hrr, hconv, ?_⟩
  intro j hj hcell
  have hjlt : j < rr.length := by
    by_contra hge
    rw [cellAt_of_le rr j (Nat.le_of_not_lt hge)] at hcell
    exact PyCell.noConfusion hcell
  have hna : cellAt (replaceRow rr) j = .na := by
    rw [cellAt_replaceRow rr j hjlt, hcell]
    rfl
  obtain ⟨_, hpt⟩ := astypeRowAux_spec idxs' 0 (replaceRow rr) row hconv
  have hjlt2 : j < (replaceRow rr).length := by
    rw [length_replaceRow]; exact hjlt
  have hstep := hpt j hjlt2
  rw [Nat.zero_add, if_pos hj, hna] at hstep
  have hrowj : cellAt row j = .na := (Except.ok.inj hstep).symm
  exact ⟨hrowj, by rw [hrowj]; exact fun hh => PyCell.noConfusion hh⟩

/-- Witness for C5: a Jollas row whose 2022 cell is the sentinel `".."`;
the theorem ties the output row to that input row and turns its sentinel
cell into the missing marker. -/
theorem sentinel_cells_become_null_witness :
    ∃ r ∈ [[PyCell.str "091 220 Jollas", PyCell.str ".."]],
      astypeRow [1] (replaceRow r)
          = .ok [PyCell.str "091 220 Jollas", PyCell.na]
      ∧ ∀ j ∈ [1], cellAt r j = .str ".." →
          cellAt [PyCell.str "091 220 Jollas", PyCell.na] j = .na
          ∧ cellAt [PyCell.str "091 220 Jollas", PyCell.na] j ≠ .num 0 :=
  sentinel_cells_become_null ["Alue", "2022 Mediaani euroa"]
    [[PyCell.str "091 220 Jollas", PyCell.str ".."]] ["2022"]
    ⟨["Alue", "2022"], [[PyCell.str "091 220 Jollas", PyCell.na]]⟩
    [PyCell.str "091 220 Jollas", PyCell.na] [1]
    (by decide) (by decide) (by decide)

/-- C8 counterexample: a row whose only requested year cell (2022) is the
sentinel `".."` — hence missing in every requested year column — is NOT
dropped: its area label is non-missing, so `dropna(how='all')` keeps it and
it appears in the output with a null income, where the claim requires it to
be dropped. -/
theorem all_years_missing_row_kept_counterexample :
    make_query 200 ["Alue", "2022 Mediaani euroa"]
      [[PyCell.str "091 220 Jollas", PyCell.str ".."]] ["2022"]
      = .ok ⟨["Alue", "2022"], [[PyCell.str "091 220 Jollas", PyCell.na]]⟩
    ∧ ([[PyCell.str "091 220 Jollas", PyCell.na]] : List (List PyCell))
        ≠ [] := by
  exact ⟨by decide, by decide⟩

/-- C8 amended: `dropna(how='all')` drops a row only when every cell of the
row — the area label included — is missing after sentinel conversion: every
surviving output row still has a non-missing cell in some column, and the
number of output rows equals the number of input rows that are not missing
in every column; rows missing in all requested year columns but carrying a
non-missing area label are kept. -/
theorem dropna_requires_all_columns_missing (headers : List String)
    (rows : List (List PyCell)) (years : List String) (df : PDF)
    (h : make_query 200 headers rows years = .ok df) :
    (∀ row ∈ df.rows, ∃ c ∈ row, c.isNA = false)
    ∧ df.rows.length
        = (rows.filter fun r => !((replaceRow r).all PyCell.isNA)).length := by
  obtain ⟨idxs, _, hrows, _⟩ := make_query_ok_inv headers rows years df h
  obtain ⟨hlen, hmem⟩ := astypeRows_spec idxs _ df.rows hrows
  constructor
  · intro row hrow
    obtain ⟨r2, hr2, hconv⟩ := hmem row hrow
    obtain ⟨hr2mem, hr2keep⟩ := List.mem_filter.mp hr2
    have hex : ∃ i, i < r2.length ∧ (cellAt r2 i).isNA = false := by
      by_contra hall
      push_neg at hall
      have : r2.all PyCell.isNA = true := by
        rw [List.all_eq_true]
        intro x hx
        obtain ⟨n, hn⟩ := List.mem_iff_get.mp hx
        have hlt : (n : ℕ) < r2.length := n.isLt
        have := hall n hlt
        rw [cellAt_eq_get r2 n hlt] at this
        simp only [Fin.eta] at this
        rw [hn] at this
        cases hna : x.isNA with
        | false => exact absurd hna this
        | true => rfl
      rw [this] at hr2keep
      exact Bool.noConfusion hr2keep
    obtain ⟨i, hilt, hina⟩ := hex
    obtain ⟨hlen2, hpt⟩ := astypeRowAux_spec idxs 0 r2 row hconv
    have hstep := hpt i hilt
    have hrowna : (cellAt row i).isNA = false := by
      by_cases hk : (0 + i) ∈ idxs
      · rw [if_pos hk] at hstep
        rw [convertCell_isNA (cellAt r2 i) (cellAt row i) hstep]
        exact hina
      · rw [if_neg hk] at hstep
        rw [hstep]
        exact hina
    have hirow : i < row.length := by rw [hlen2]; exact hilt
    exact ⟨cellAt row i, cellAt_mem row i hirow, hrowna⟩
  · rw [hlen, List.filter_map, List.length_map]
    rfl

/-- Witness for C8's amended theorem: a table with a Jollas row whose only
year cell is the sentinel and a fully-missing row; only the fully-missing
row is dropped. -/
theorem dropna_requires_all_columns_missing_witness :
    (∀ row ∈ (PDF.mk ["Alue", "2022"]
        [[PyCell.str "091 220 Jollas", PyCell.na]]).rows,
      ∃ c ∈ row, c.isNA = false)
    ∧ (PDF.mk ["Alue", "2022"]
        [[PyCell.str "091 220 Jollas", PyCell.na]]).rows.length
        = (([[PyCell.str "091 220 Jollas", PyCell.str ".."],
             [PyCell.str "..", PyCell.str ".."]] : List (List PyCell)).filter
            fun r => !((replaceRow r).all PyCell.isNA)).length :=
  dropna_requires_all_columns_missing ["Alue", "2022 Mediaani euroa"]
    [[PyCell.str "091 220 Jollas", PyCell.str ".."],
     [PyCell.str "..", PyCell.str ".."]] ["2022"]
    ⟨["Alue", "2022"], [[PyCell.str "091 220 Jollas", PyCell.na]]⟩
    (by decide)

/-! ## Theorems: C2, C10 -/

lemma pySplit2_length_le (s : String) : (pySplit2 s).length ≤ 3 := by
  unfold pySplit2
  split
  · simp
  · split
    · simp
    · simp

lemma foldr_max_le (l : List ℕ) (b : ℕ) (h : ∀ x ∈ l, x ≤ b) :
    l.foldr Nat.max 0 ≤ b := by
  induction l with
  | nil => simp
  | cons a l ih =>
      simp only [List.foldr_cons]
      have ha := h a (List.mem_cons_self a l)
      have hl := ih fun x hx => h x (List.mem_cons_of_mem a hx)
      exact Nat.max_le.mpr ⟨ha, hl⟩

lemma le_foldr_max (l : List ℕ) (x : ℕ) (h : x ∈ l) :
    x ≤ l.foldr Nat.max 0 := by
  induction l with
  | nil => simp at h
  | cons a l ih =>
      simp only [List.foldr_cons]
      rcases List.mem_cons.mp h with rfl | hx
      · exact Nat.le_max_left _ _
      · exact Nat.le_trans (ih hx) (Nat.le_max_right _ _)

lemma map_filter_eq_filterMap {α β : Type} (p : α → Bool) (g : α → β)
    (l : List α) :
    (l.filter p).map g = l.filterMap fun a => if p a then some (g a) else none := by
  induction l with
  | nil => simp
  | cons a l ih =>
      cases hp : p a
      · simp [List.filter_cons, hp, List.filterMap_cons, ih]
      · simp [List.filter_cons, hp, List.filterMap_cons, ih]

lemma clean_data_ok_inv (rows : List RawRow) (out : List CleanRow)
    (h : clean_data rows = .ok out) :
    out = ((rows.filter keepsRow).filter
        fun r => pyIsNumeric ((rowParts r).getD 1 "")).map
        fun r => mkClean r (rowParts r) := by
  unfold clean_data at h
  split at h
  · exact Except.noConfusion h
  · split at h
    · exact Except.noConfusion h
    · split at h
      · exact Except.noConfusion h
      · exact (Except.ok.inj h).symm

lemma clean_core (rows : List RawRow) :
    (((rows.filter keepsRow).filter
        fun r => pyIsNumeric ((rowParts r).getD 1 "")).map
        fun r => mkClean r (rowParts r))
      = rows.filterMap cleanRowSpec := by
  rw [List.filter_filter, map_filter_eq_filterMap]
  congr 1
  funext r
  cases hr : r.alue with
  | none =>
      have hk : keepsRow r = false := by simp [keepsRow, hr]
      simp [cleanRowSpec, hr, hk]
  | some s =>
      have hparts : rowParts r = pySplit2 s := by simp [rowParts, hr]
      by_cases hp : pyContains s "piiri"
      · have hk : keepsRow r = false := by simp [keepsRow, hr, hp]
        simp [cleanRowSpec, hr, hp, hk]
      · have hk : keepsRow r = true := by simp [keepsRow, hr, hp]
        by_cases hn : pyIsNumeric ((pySplit2 s).getD 1 "")
        · simp [cleanRowSpec, hr, hp, hn, hk, hparts]
        · simp [cleanRowSpec, hr, hp, hn, hk, hparts]

/-- C2 counterexample: on the one-row table `'091 x'` (two tokens,
non-numeric second token, no district marker) the claim predicts the empty
output table, but `clean_data` raises: after the second token fails the
numeric test nothing remains with a third token, and the assignment
`Aluecol[2]` raises `KeyError` because the split frame has only columns
0 and 1. -/
theorem clean_data_two_token_table_counterexample :
    clean_data [{ alue := some "091 x", values := [] }]
      = .error "KeyError: 2"
    ∧ ([{ alue := some "091 x", values := [] }] : List RawRow).filterMap
        cleanRowSpec = [] :=
  ⟨by decide, by decide⟩

/-- C2 amended: on every input table in which (i) each row passing the
district filter splits into at least two tokens and (ii) some row passing
the district filter splits into three tokens, the cleaner succeeds and its
output contains exactly the rows whose label lacks `piiri` and whose second
token is purely numeric, each split into municipality number, region
number, and region name (the remainder; missing when the label had exactly
two tokens), with the label column dropped.  On tables violating (i) or
(ii) the cleaner raises instead of returning a table. -/
theorem clean_data_keeps_numeric_subregion_rows (rows : List RawRow)
    (h2 : ∀ r ∈ rows, keepsRow r = true → 2 ≤ (rowParts r).length)
    (h3 : ∃ r ∈ rows, keepsRow r = true ∧ (rowParts r).length = 3) :
    clean_data rows = .ok (rows.filterMap cleanRowSpec) := by
  have hub : ∀ n ∈ ((rows.filter keepsRow).map fun r => (rowParts r).length),
      n ≤ 3 := by
    intro n hn
    obtain ⟨r, _, rfl⟩ := List.mem_map.mp hn
    exact pySplit2_length_le _
  have hmem3 :
      3 ∈ ((rows.filter keepsRow).map fun r => (rowParts r).length) := by
    obtain ⟨r, hr, hk, hl⟩ := h3
    exact List.mem_map.mpr ⟨r, List.mem_filter.mpr ⟨hr, hk⟩, hl⟩
  have hmax : ((rows.filter keepsRow).map
      fun r => (rowParts r).length).foldr Nat.max 0 = 3 :=
    Nat.le_antisymm (foldr_max_le _ _ hub) (le_foldr_max _ _ hmem3)
  have hany : ((rows.filter keepsRow).any
      fun r => (rowParts r).length < 2) = false := by
    rw [List.any_eq_false]
    intro r hr
    obtain ⟨hrmem, hkeep⟩ := List.mem_filter.mp hr
    have := h2 r hrmem hkeep
    simp only [decide_eq_true_eq]
    omega
  unfold clean_data
  rw [hmax, hany]
  rw [if_neg (by omega)]
  rw [if_neg (by simp)]
  rw [if_neg (by omega)]
  rw [clean_core]

/-- Witness for C2's amended theorem at the spec's four examples:
`'091 220 Jollas'` survives as municipality 091, region 220, name Jollas;
`'091 piiri Keskinen'`, `'091 piiri'` and `'091 abc Name'` are dropped. -/
theorem clean_data_keeps_numeric_subregion_rows_witness :
    clean_data [{ alue := some "091 220 Jollas", values := [] },
        { alue := some "091 piiri Keskinen", values := [] },
        { alue := some "091 piiri", values := [] },
        { alue := some "091 abc Name", values := [] }]
      = .ok (([{ alue := some "091 220 Jollas", values := [] },
          { alue := some "091 piiri Keskinen", values := [] },
          { alue := some "091 piiri", values := [] },
          { alue := some "091 abc Name", values := [] }] : List RawRow).filterMap
          cleanRowSpec) :=
  clean_data_keeps_numeric_subregion_rows _ (by decide) (by decide)

/-- C10: a row whose `Alue` label is missing never survives the cleaner:
`.str.contains('piiri')` yields `NaN` there, `NaN == False` is `False`, so
the row is filtered out with the district rows, and every output row stems
from a row with a present, district-marker-free label. -/
theorem missing_label_rows_never_survive (rows : List RawRow)
    (out : List CleanRow) (h : clean_data rows = .ok out) :
    (∀ vals, keepsRow { alue := none, values := vals } = false)
    ∧ ∀ orow ∈ out, ∃ r ∈ rows, ∃ s, r.alue = some s
        ∧ pyContains s "piiri" = false ∧ orow = mkClean r (rowParts r) := by
  refine ⟨fun vals => rfl, ?_⟩
  intro orow ho
  rw [clean_data_ok_inv rows out h] at ho
  obtain ⟨r, hrf, rfl⟩ := List.mem_map.mp ho
  obtain ⟨hr1, _⟩ := List.mem_filter.mp hrf
  obtain ⟨hrmem, hkeep⟩ := List.mem_filter.mp hr1
  cases hr : r.alue with
  | none =>
      have hfalse : keepsRow r = false := by simp [keepsRow, hr]
      rw [hfalse] at hkeep
      exact Bool.noConfusion hkeep
  | some s =>
      have hpc : pyContains s "piiri" = false := by
        have := hkeep
        simp [keepsRow, hr] at this
        exact this
      exact ⟨r, hrmem, s, hr, hpc, rfl⟩

/-- Witness for C10: a table holding a missing-label row and a Jollas row;
the cleaner succeeds and every output row stems from the Jollas row. -/
theorem missing_label_rows_never_survive_witness :
    (∀ vals, keepsRow { alue := none, values := vals } = false)
    ∧ ∀ orow ∈ [CleanRow.mk "220" (some "Jollas") "091" []],
        ∃ r ∈ [RawRow.mk none [], RawRow.mk (some "091 220 Jollas") []],
          ∃ s, r.alue = some s ∧ pyContains s "piiri" = false
            ∧ orow = mkClean r (rowParts r) :=
  missing_label_rows_never_survive
    [RawRow.mk none [], RawRow.mk (some "091 220 Jollas") []]
    [CleanRow.mk "220" (some "Jollas") "091" []] (by decide)
